import Mathlib

/-!
Shallow embedding of the VMAG flight-search service (Django + Playwright)
and proofs about its specification.

The embedding covers, from src/flights/services.py:
  FlightParser._determine_trip_type, FlightParser._format_date,
  FlightParser._clean_datetime, FlightParser._extract_ticket_data,
  FlightParser._process_chunks, FlightParser._save_flights_to_db,
  FlightParser._wait_for_content, FlightParser._expand_all_tickets,
  FlightParser.run,
and, from src/api/views.py:
  FlightSearchView.post and FlightSearchView._generate_cache_key.

Python's strptime, float(), json.dumps(sort_keys=True) and hashlib.md5 are
embedded directly (bytes are Nat, 32-bit arithmetic is Nat mod 2^32).
Django's cache and ORM are embedded as explicit state (association lists),
and the in-memory mutation of Python dicts is embedded as an explicit
heap of dict values addressed by natural numbers.
-/

namespace VMAG

/-! ### Python-style string helpers -/

/-- Value of an ASCII digit character, if it is one. -/
def digitVal (c : Char) : Option Nat :=
  if '0' ≤ c ∧ c ≤ '9' then some (c.toNat - 48) else none

/-- Character-range test used by the strptime regular expressions. -/
def charBetween (c lo hi : Char) : Bool := lo ≤ c && c ≤ hi

/-- Numeric value of a digit character (partial inverse of Char.ofNat). -/
def dval (c : Char) : Nat := c.toNat - 48

/-- Python str.strip(): remove leading and trailing ASCII whitespace. -/
def pyStrip (s : String) : String :=
  let ws : List Char := [' ', '\t', '\n', '\r', '\x0b', '\x0c']
  let chars := s.toList
  let chars := chars.dropWhile (fun c => ws.contains c)
  let chars := (chars.reverse.dropWhile (fun c => ws.contains c)).reverse
  String.mk chars

/-- Whether the first list is a prefix of the second. -/
def listStartsWith : List Char → List Char → Bool
  | [], _ => true
  | _ :: _, [] => false
  | p :: ps, c :: cs => p = c && listStartsWith ps cs

/-- Substring occurrence test on character lists. -/
def containsSub : List Char → List Char → Bool
  | [], pat => pat.isEmpty
  | c :: rest, pat => listStartsWith pat (c :: rest) || containsSub rest pat

/-- Python sub in s (substring membership). -/
def pyContains (s sub : String) : Bool := containsSub s.toList sub.toList

/-- Characters before the first occurrence of a nonempty pattern, or the
whole input when the pattern does not occur. -/
def splitFirstChars (pat : List Char) : List Char → List Char
  | [] => []
  | c :: rest => if listStartsWith pat (c :: rest) then [] else c :: splitFirstChars pat rest

/-- Python s.split(sep)[0] for a nonempty separator. -/
def pySplitFirst (s sep : String) : String := String.mk (splitFirstChars sep.toList s.toList)

/-- Python s.replace(old, new) for a nonempty old: replace every
leftmost non-overlapping occurrence (fuel-bounded; every step consumes
at least one character, so the length is always enough fuel). -/
def pyReplaceGo (pat repl : List Char) : Nat → List Char → List Char
  | 0, s => s
  | _ + 1, [] => []
  | fuel + 1, c :: rest =>
    if listStartsWith pat (c :: rest) && !pat.isEmpty then
      repl ++ pyReplaceGo pat repl fuel (List.drop (pat.length - 1) rest)
    else c :: pyReplaceGo pat repl fuel rest

/-- Python s.replace(old, new); the old patterns in this code base are
never empty. -/
def pyReplace (s pat repl : String) : String :=
  String.mk (pyReplaceGo pat.toList repl.toList s.toList.length s.toList)

/-- Python s.rsplit(' ', 1)[0]: everything before the last space,
or the whole string when it has no space. -/
def pyRsplitSpaceFirst (s : String) : String :=
  let chars := s.toList
  let tailLen := (chars.reverse.takeWhile (fun c => c ≠ ' ')).length
  if tailLen = chars.length then s
  else String.mk (chars.take (chars.length - tailLen - 1))

/-- Python s[-4:-1]: the slice from index len-4 (clamped to 0) up to,
excluding, index len-1 (clamped to 0). -/
def pySliceNeg4Neg1 (s : String) : String :=
  let chars := s.toList
  let n := chars.length
  String.mk ((chars.take (n - 1)).drop (n - 4))

/-- Zero-pad a natural number to two digits (strftime %m, %d, %H, %M). -/
def pad2 (n : Nat) : String := if n < 10 then "0" ++ toString n else toString n

/-- Zero-pad a natural number to four digits (strftime %Y). -/
def pad4 (n : Nat) : String :=
  if n < 10 then "000" ++ toString n
  else if n < 100 then "00" ++ toString n
  else if n < 1000 then "0" ++ toString n
  else toString n

/-! ### Calendar arithmetic shared by the strptime embeddings -/

/-- Gregorian leap-year test, as in Python's datetime module. -/
def isLeapYear (y : Nat) : Bool := (y % 4 == 0 && y % 100 != 0) || y % 400 == 0

/-- Number of days in a month, as validated by datetime's constructor. -/
def daysInMonth (y m : Nat) : Nat :=
  if m = 2 then (if isLeapYear y then 29 else 28)
  else if m = 4 ∨ m = 6 ∨ m = 9 ∨ m = 11 then 30
  else 31

/-! ### strptime directive matchers

Each matcher embeds the regular expression CPython's _strptime module
compiles for the directive, as a function from the remaining input to the
list of possible (value, rest) outcomes in the order the regex alternation
tries them.  A full match takes the first alternative that lets the whole
pattern consume the input, exactly as regex backtracking does. -/

/-- Directive %Y, regex (d d d d): exactly four digits. -/
def matchY : List Char → List (Nat × List Char)
  | c1 :: c2 :: c3 :: c4 :: rest =>
    if charBetween c1 '0' '9' && charBetween c2 '0' '9' &&
       charBetween c3 '0' '9' && charBetween c4 '0' '9' then
      [(dval c1 * 1000 + dval c2 * 100 + dval c3 * 10 + dval c4, rest)]
    else []
  | _ => []

/-- Directive %m (also %I), regex 1[0-2] | 0[1-9] | [1-9]. -/
def matchM : List Char → List (Nat × List Char)
  | c1 :: c2 :: rest =>
    (if c1 = '1' && charBetween c2 '0' '2' then [(10 + dval c2, rest)] else []) ++
    (if c1 = '0' && charBetween c2 '1' '9' then [(dval c2, rest)] else []) ++
    (if charBetween c1 '1' '9' then [(dval c1, c2 :: rest)] else [])
  | [c1] => if charBetween c1 '1' '9' then [(dval c1, [])] else []
  | [] => []

/-- Directive %d, regex 3[0-1] | [1-2]d | 0[1-9] | [1-9] | " "[1-9]. -/
def matchD : List Char → List (Nat × List Char)
  | c1 :: c2 :: rest =>
    (if c1 = '3' && charBetween c2 '0' '1' then [(30 + dval c2, rest)] else []) ++
    (if charBetween c1 '1' '2' && charBetween c2 '0' '9' then
      [(10 * dval c1 + dval c2, rest)] else []) ++
    (if c1 = '0' && charBetween c2 '1' '9' then [(dval c2, rest)] else []) ++
    (if charBetween c1 '1' '9' then [(dval c1, c2 :: rest)] else []) ++
    (if c1 = ' ' && charBetween c2 '1' '9' then [(dval c2, rest)] else [])
  | [c1] => if charBetween c1 '1' '9' then [(dval c1, [])] else []
  | [] => []

/-- Match one literal character. -/
def matchLit (c : Char) : List Char → List (List Char)
  | c1 :: rest => if c1 = c then [rest] else []
  | [] => []

/-- Full matches of the pattern %Y-%m-%d against the whole input,
in regex backtracking order. -/
def parseYmdMatches (s : List Char) : List (Nat × Nat × Nat) :=
  (matchY s).flatMap fun yr =>
    (matchLit '-' yr.2).flatMap fun r2 =>
      (matchM r2).flatMap fun mr =>
        (matchLit '-' mr.2).flatMap fun r4 =>
          (matchD r4).filterMap fun dr =>
            if dr.2 = [] then some (yr.1, mr.1, dr.1) else none

/-- Full matches of the pattern %m/%d/%Y against the whole input,
in regex backtracking order. -/
def parseMdyMatches (s : List Char) : List (Nat × Nat × Nat) :=
  (matchM s).flatMap fun mr =>
    (matchLit '/' mr.2).flatMap fun r2 =>
      (matchD r2).flatMap fun dr =>
        (matchLit '/' dr.2).flatMap fun r4 =>
          (matchY r4).filterMap fun yr =>
            if yr.2 = [] then some (yr.1, mr.1, dr.1) else none

/-- Validity check performed by datetime's constructor after the regex
match: MINYEAR is 1 and the day must exist in the month. -/
def validDate (y m d : Nat) : Bool := 1 ≤ y && d ≤ daysInMonth y m

/-- Embeds datetime.strptime(s, "%Y-%m-%d") as year-month-day, with none
for the ValueError cases. -/
def strptimeYmd (s : String) : Option (Nat × Nat × Nat) :=
  match parseYmdMatches s.toList with
  | [] => none
  | (y, m, d) :: _ => if validDate y m d then some (y, m, d) else none

/-- Embeds datetime.strptime(s, "%m/%d/%Y") as year-month-day, with none
for the ValueError cases. -/
def strptimeMdy (s : String) : Option (Nat × Nat × Nat) :=
  match parseMdyMatches s.toList with
  | [] => none
  | (y, m, d) :: _ => if validDate y m d then some (y, m, d) else none

/-- Embeds strftime("%Y-%m-%d"). -/
def fmtYmd (y m d : Nat) : String := pad4 y ++ "-" ++ pad2 m ++ "-" ++ pad2 d

/-- Embeds FlightParser._format_date (src/flights/services.py:61-72):
try %Y-%m-%d, then %m/%d/%Y, each re-emitted as %Y-%m-%d; if both
strptime calls raise ValueError, raise the unsupported-format ValueError. -/
def format_date (date_str : String) : Except String String :=
  match strptimeYmd date_str with
  | some (y, m, d) => Except.ok (fmtYmd y m d)
  | none =>
    match strptimeMdy date_str with
    | some (y, m, d) => Except.ok (fmtYmd y m d)
    | none => Except.error ("Неподдерживаемый формат даты: " ++ date_str)

/-! ### Trip legs and trip-type classification -/

/-- One leg of the validated search request (LegSerializer fields). -/
structure Leg where
  origin : String
  destination : String
  date : String
deriving Repr, DecidableEq

/-- Embeds FlightParser._determine_trip_type (src/flights/services.py:45-59). -/
def determineTripType (legs : List Leg) : String :=
  let count := legs.length
  if count = 1 then "one-way"
  else if count = 2 then
    match legs with
    | leg1 :: leg2 :: _ =>
      if leg1.origin = leg2.destination ∧ leg1.destination = leg2.origin then
        "return"
      else "multi-city"
    | _ => "multi-city"
  else "multi-city"

/-! ### strptime for the format "%a, %b %d, %Y %I:%M %p"

CPython lowercases names and matches case-insensitively; runs of
whitespace in the format match one-or-more whitespace characters in the
input (greedily, with backtracking).  The input is lowercased before
matching, which embeds the ignore-case flag. -/

/-- Whitespace characters matched by the regex class for spaces. -/
def isSpaceChar (c : Char) : Bool :=
  c = ' ' || c = '\t' || c = '\n' || c = '\r' || c = '\x0b' || c = '\x0c'

/-- Ways for a greedy one-or-more whitespace pattern to consume input,
longest consumption first (regex backtracking order). -/
def wsPlus (s : List Char) : List (List Char) :=
  let k := (s.takeWhile isSpaceChar).length
  (List.range k).map (fun i => s.drop (k - i))

/-- Lowercased weekday abbreviations in the order %a tries them. -/
def weekdayNames : List String := ["mon", "tue", "wed", "thu", "fri", "sat", "sun"]

/-- Lowercased month abbreviations in the order %b tries them. -/
def monthNames : List String :=
  ["jan", "feb", "mar", "apr", "may", "jun", "jul", "aug", "sep", "oct", "nov", "dec"]

/-- Match one name from a list of alternatives, returning its 1-based
index (the month number for %b, the am/pm selector for %p). -/
def matchWord (names : List String) (s : List Char) : List (Nat × List Char) :=
  names.enum.filterMap fun p =>
    if s.take p.2.length = p.2.toList then some (p.1 + 1, s.drop p.2.length) else none

/-- Directive %M, regex [0-5]d | d. -/
def matchMin : List Char → List (Nat × List Char)
  | c1 :: c2 :: rest =>
    (if charBetween c1 '0' '5' && charBetween c2 '0' '9' then
      [(10 * dval c1 + dval c2, rest)] else []) ++
    (if charBetween c1 '0' '9' then [(dval c1, c2 :: rest)] else [])
  | [c1] => if charBetween c1 '0' '9' then [(dval c1, [])] else []
  | [] => []

/-- Hour-of-day from the %I field and the %p selector (1 = am, 2 = pm). -/
def hour24 (h12 p : Nat) : Nat :=
  if p = 2 then (if h12 = 12 then 12 else h12 + 12)
  else (if h12 = 12 then 0 else h12)

/-- Full matches of "%a, %b %d, %Y %I:%M %p" against the whole input, as
(month, day, year, hour, minute), in regex backtracking order. -/
def parseCleanDtMatches (s : List Char) : List (Nat × Nat × Nat × Nat × Nat) :=
  (matchWord weekdayNames s).flatMap fun wr =>
    (matchLit ',' wr.2).flatMap fun r1 =>
      (wsPlus r1).flatMap fun r2 =>
        (matchWord monthNames r2).flatMap fun br =>
          (wsPlus br.2).flatMap fun r3 =>
            (matchD r3).flatMap fun dr =>
              (matchLit ',' dr.2).flatMap fun r4 =>
                (wsPlus r4).flatMap fun r5 =>
                  (matchY r5).flatMap fun yr =>
                    (wsPlus yr.2).flatMap fun r6 =>
                      (matchM r6).flatMap fun hr =>
                        (matchLit ':' hr.2).flatMap fun r7 =>
                          (matchMin r7).flatMap fun mr =>
                            (wsPlus mr.2).flatMap fun r8 =>
                              (matchWord ["am", "pm"] r8).filterMap fun pr =>
                                if pr.2 = [] then
                                  some (br.1, dr.1, yr.1, hour24 hr.1 pr.1, mr.1)
                                else none

/-- Embeds FlightParser._clean_datetime (src/flights/services.py:171-175):
strptime over the stripped, space-joined date and time, re-emitted with
strftime("%Y-%m-%d %H:%M"); none embeds the ValueError cases. -/
def clean_datetime (date_str time_str : String) : Option String :=
  let input := (pyStrip date_str ++ " " ++ pyStrip time_str).toList.map Char.toLower
  match parseCleanDtMatches input with
  | [] => none
  | (mo, dy, yr, hh, mi) :: _ =>
    if validDate yr mo dy then
      some (fmtYmd yr mo dy ++ " " ++ pad2 hh ++ ":" ++ pad2 mi)
    else none

/-! ### Python float() string conversion

Only acceptance and the exact decimal value matter to the claims, so the
value is kept as an exact rational; the inf/nan spellings are separate
constructors.  Underscores are allowed between digits as in Python 3. -/

/-- Natural number denoted by a digit list. -/
def digitsToNat (ds : List Char) : Nat := ds.foldl (fun a c => 10 * a + dval c) 0

/-- Exact value of a decimal literal, canonically represented as
m * 10 ^ e with m not divisible by 10 (and 0 as m = 0, e = 0), so that
two literals denote the same number exactly when their representations
are equal. -/
structure DecVal where
  m : Int
  e : Int
deriving Repr, DecidableEq

/-- Strip factors of ten from the mantissa (fuel-bounded by the digit
count, which each step decreases). -/
def stripTens : Nat → Int → Int → DecVal
  | 0, m, e => if m = 0 then ⟨0, 0⟩ else ⟨m, e⟩
  | fuel + 1, m, e =>
    if m = 0 then ⟨0, 0⟩
    else if m % 10 = 0 then stripTens fuel (m / 10) (e + 1)
    else ⟨m, e⟩

/-- Canonical decimal value of sign, mantissa digits and exponent. -/
def mkDecVal (neg : Bool) (digits : List Char) (e : Int) : DecVal :=
  let mNat := digitsToNat digits
  let m : Int := if neg then -(mNat : Int) else (mNat : Int)
  stripTens digits.length m e

/-- Result of a successful Python float() conversion.  The numeric case
keeps the exact decimal value (float rounding is not observed by any
claim). -/
inductive PyFloat where
  | num (v : DecVal)
  | infVal (neg : Bool)
  | nanVal
deriving Repr, DecidableEq

/-- Take a run of digits possibly separated by single underscores, as in
the Python float grammar; returns the digits (underscores dropped) and
the unconsumed rest. -/
def takeDigitsUSGo : Nat → List Char → (List Char × List Char)
  | 0, s => ([], s)
  | fuel + 1, s =>
    match s with
    | c :: '_' :: c2 :: rest2 =>
      if charBetween c '0' '9' then
        if charBetween c2 '0' '9' then
          let p := takeDigitsUSGo fuel (c2 :: rest2)
          (c :: p.1, p.2)
        else ([c], '_' :: c2 :: rest2)
      else ([], c :: '_' :: c2 :: rest2)
    | c :: rest =>
      if charBetween c '0' '9' then
        let p := takeDigitsUSGo fuel rest
        (c :: p.1, p.2)
      else ([], c :: rest)
    | [] => ([], [])

/-- Wrapper at sufficient fuel: every step consumes at least one
character and one unit of fuel, so the length is always enough. -/
def takeDigitsUS (s : List Char) : List Char × List Char := takeDigitsUSGo s.length s

/-- Embeds float(s) for a string: strip, optional sign, the named values
inf / infinity / nan (case-insensitive), or a decimal literal with
optional fraction and exponent; none embeds ValueError. -/
def parseFloat (s : String) : Option PyFloat :=
  let t := (pyStrip s).toList.map Char.toLower
  let signed : Bool × List Char :=
    match t with
    | '+' :: r => (false, r)
    | '-' :: r => (true, r)
    | r => (false, r)
  let neg := signed.1
  let body := signed.2
  if body = "inf".toList ∨ body = "infinity".toList then some (PyFloat.infVal neg)
  else if body = "nan".toList then some PyFloat.nanVal
  else
    let ipp := takeDigitsUS body
    let fpp : Option (List Char) × List Char :=
      match ipp.2 with
      | '.' :: r => let p := takeDigitsUS r; (some p.1, p.2)
      | r => (none, r)
    if ipp.1 = [] ∧ (fpp.1 = none ∨ fpp.1 = some []) then none
    else
      let frac := (fpp.1.getD [])
      let valOf : Int → Option PyFloat := fun e =>
        some (PyFloat.num (mkDecVal neg (ipp.1 ++ frac) (e - (frac.length : Int))))
      match fpp.2 with
      | [] => valOf 0
      | 'e' :: r =>
        let esigned : Bool × List Char :=
          match r with
          | '+' :: r2 => (false, r2)
          | '-' :: r2 => (true, r2)
          | r2 => (false, r2)
        let epp := takeDigitsUS esigned.2
        if epp.1 = [] ∨ epp.2 ≠ [] then none
        else valOf (if esigned.1 then -(digitsToNat epp.1 : Int) else (digitsToNat epp.1 : Int))
      | _ => none

/-! ### Raw DOM data and per-card extraction -/

/-- Raw per-segment strings pulled out of one ticket card by the
in-page script of FlightParser._extract_ticket_data. -/
structure RawSeg where
  airline : String
  dep_iata : String
  arr_iata : String
  dep_time : String
  arr_time : String
  dep_date : String
  arr_date_raw : String
deriving Repr, DecidableEq

/-- Raw per-card strings pulled out of one ticket card (the dictionary
the in-page script returns). -/
structure RawTicket where
  airline : String
  uid : String
  price : String
  segments : List RawSeg
deriving Repr, DecidableEq

/-- One processed flight segment as appended to processed_segments. -/
structure Segment where
  operating_airline : String
  departure : String
  departure_date : String
  arrival : String
  arrival_date : String
  order : Nat
deriving Repr, DecidableEq

/-- The dictionary _extract_ticket_data returns for one card.  The
segments field is an Option because _save_flights_to_db pops the
segments key off the dictionary (none embeds an absent key). -/
structure TicketDict where
  validating_airline : String
  ticket_uid : String
  price : PyFloat
  route_type : String
  segments : Option (List Segment)
deriving Repr, DecidableEq

/-- Cleaning applied to the raw price text before float():
replace "$" and "," by nothing, then strip. -/
def cleanPriceText (s : String) : String :=
  pyStrip (pyReplace (pyReplace s "$" "") "," "")

/-- Cleaning applied to arr_date_raw: drop "Arrives:", cut at
"Duration" when present, then strip. -/
def cleanArrDate (s : String) : String :=
  let v := pyReplace s "Arrives:" ""
  let v := if pyContains v "Duration" then pySplitFirst v "Duration" else v
  pyStrip v

/-- Per-segment processing loop of _extract_ticket_data
(src/flights/services.py:298-322): a _clean_datetime failure on either
datetime skips just that segment (the inner try/except continue); order
is the enumerate index over the raw segments. -/
def processSegments (segs : List RawSeg) : List Segment :=
  segs.enum.filterMap fun p =>
    let idx := p.1
    let s := p.2
    let arrDateVal := cleanArrDate s.arr_date_raw
    match clean_datetime s.dep_date s.dep_time, clean_datetime arrDateVal s.arr_time with
    | some depDt, some arrDt =>
      some { operating_airline := pyRsplitSpaceFirst s.airline
             departure := pySliceNeg4Neg1 s.dep_iata
             departure_date := depDt
             arrival := pySliceNeg4Neg1 s.arr_iata
             arrival_date := arrDt
             order := idx }
    | _, _ => none

/-- Embeds FlightParser._extract_ticket_data (src/flights/services.py:253-334).
The outer try/except turns any failure — in the code only float() on the
cleaned price text can raise here — into the empty dictionary, embedded
as none.  String cleanups mirror the source expressions. -/
def extractTicketData (card : RawTicket) (searchLegs : List Leg) : Option TicketDict :=
  let processed := processSegments card.segments
  match parseFloat (cleanPriceText card.price) with
  | some p =>
    some { validating_airline := card.airline
           ticket_uid := pyStrip (pySplitFirst (pyReplace card.uid "Ticket ID" "") "Share")
           price := p
           route_type := determineTripType searchLegs
           segments := some processed }
  | none => none

/-- Embeds the chunk loop of FlightParser._process_chunks
(src/flights/services.py:360-384): slices of chunkSize cards are
awaited batch by batch and only truthy dictionaries are collected.  The
fuel argument bounds the loop exactly as the Python range does; it is
always called with fuel = items.length, enough for any chunkSize ≥ 1. -/
def processChunksGo (chunkSize : Nat) (searchLegs : List Leg) :
    Nat → List RawTicket → List TicketDict
  | _, [] => []
  | 0, _ => []
  | fuel + 1, items =>
    let chunk := items.take chunkSize
    let chunkResults := chunk.map (fun c => extractTicketData c searchLegs)
    (chunkResults.filterMap id) ++ processChunksGo chunkSize searchLegs fuel (items.drop chunkSize)

/-- Embeds FlightParser._process_chunks.  The Python for-loop over
range(0, total, chunk_size) performs at most total iterations when
chunk_size ≥ 1, so total is enough fuel. -/
def processChunks (items : List RawTicket) (searchLegs : List Leg) (chunkSize : Nat) : List TicketDict :=
  processChunksGo chunkSize searchLegs items.length items

/-! ### Relational storage model and the persistence upsert

The Ticket and FlightSegment tables (src/flights/models.py) are
association lists keyed by ticket_uid; FlightSegment rows key their
ticket by uid (to_field=ticket_uid).  The batch try/except prints and
swallows storage errors, which have no counterpart in the pure model. -/

/-- Stored column values of one Ticket row (models.Ticket), minus the
uid key.  Decimal(str(price)) is value-preserving in the embedding. -/
structure TicketRow where
  validating_airline : String
  price : PyFloat
  route_type : String
deriving Repr, DecidableEq

/-- The two tables touched by _save_flights_to_db. -/
structure DB where
  tickets : List (String × TicketRow)
  segments : List (String × Segment)
deriving Repr, DecidableEq

/-- Embeds Ticket.objects.update_or_create(ticket_uid=..., defaults=...):
update the row in place when the uid exists, else insert it. -/
def upsertTicket (ts : List (String × TicketRow)) (uid : String) (row : TicketRow) :
    List (String × TicketRow) :=
  if ts.any (fun p => p.1 = uid) then
    ts.map (fun p => if p.1 = uid then (uid, row) else p)
  else ts ++ [(uid, row)]

/-- Embeds ticket_dict.pop('segments', []): the popped value (with the
Python default) and the dictionary without the key. -/
def popSegments (t : TicketDict) : List Segment × TicketDict :=
  (t.segments.getD [], { t with segments := none })

/-- Per-ticket body of the batch loop in _save_flights_to_db
(src/flights/services.py:128-164), after the segments key has been
popped: upsert the Ticket row, delete this ticket's FlightSegment rows,
then bulk-insert the freshly parsed ones. -/
def saveTicketParts (db : DB) (td : TicketDict) (segs : List Segment) : DB :=
  let tickets1 := upsertTicket db.tickets td.ticket_uid
    { validating_airline := td.validating_airline
      price := td.price
      route_type := td.route_type }
  let remaining := db.segments.filter (fun p => ¬ p.1 = td.ticket_uid)
  let newRows := segs.map (fun s => (td.ticket_uid, s))
  { tickets := tickets1, segments := remaining ++ newRows }

/-- One iteration of the batch loop, on dictionary values. -/
def saveTicketToDb (db : DB) (t : TicketDict) : DB :=
  let p := popSegments t
  saveTicketParts db p.2 p.1

/-- Embeds FlightParser._save_flights_to_db (src/flights/services.py:112-169)
at the level of dictionary values: the early return on an empty batch,
then the per-ticket loop inside one transaction.  The deep copy makes
the popped dictionaries private to the loop, so values suffice here; the
heap-level embedding below captures the aliasing of the deep copy. -/
def save_flights_to_db (db : DB) (flightsData : List TicketDict) : DB :=
  if flightsData.isEmpty then db
  else flightsData.foldl saveTicketToDb db

/-- The FlightSegment rows stored for one ticket uid, in table order. -/
def segsForUid (db : DB) (uid : String) : List Segment :=
  (db.segments.filter (fun p => p.1 = uid)).map (fun p => p.2)

/-! ### Heap-level embedding of the persistence step

Python dictionaries are mutable and aliased; copy.deepcopy allocates
fresh dictionaries and .pop mutates them in place.  A heap is a list of
dictionary values addressed by index, and the caller's payload is a list
of addresses into it. -/

/-- Fallback value for out-of-range heap reads (never hit by theorems). -/
def emptyTicketDict : TicketDict :=
  { validating_airline := ""
    ticket_uid := ""
    price := PyFloat.num ⟨0, 0⟩
    route_type := ""
    segments := none }

/-- A heap of ticket dictionaries addressed by allocation index. -/
def Heap : Type := List TicketDict

/-- Read the dictionary at an address. -/
def heapGet (h : Heap) (r : Nat) : TicketDict := List.getD h r emptyTicketDict

/-- One iteration of the heap-level batch loop: read the dictionary at
the copied address, pop its segments key in place, then run the
database writes on the popped value. -/
def saveFlightsHeapStep (st : Heap × DB) (cr : Nat) : Heap × DB :=
  let d := heapGet st.1 cr
  let p := popSegments d
  (List.set st.1 cr p.2, saveTicketParts st.2 p.2 p.1)

/-- Embeds FlightParser._save_flights_to_db with explicit aliasing:
refs are the caller's addresses of the batch dictionaries;
copy.deepcopy allocates fresh cells holding equal values at the end of
the heap, and each loop iteration pops the segments key by mutating the
fresh cell, never the caller's. -/
def saveFlightsHeap (h : Heap) (db : DB) (refs : List Nat) : Heap × DB :=
  if refs.isEmpty then (h, db)
  else
    let base := List.length h
    let copies : List TicketDict := refs.map (heapGet h)
    let h1 : Heap := List.append h copies
    let copyRefs := (List.range refs.length).map (fun i => i + base)
    copyRefs.foldl saveFlightsHeapStep (h1, db)

/-! ### JSON values and json.dumps(..., sort_keys=True)

Python dictionaries remember insertion order, so an object is an ordered
association list; dumps with sort_keys=True serializes every object's
entries in sorted key order, which is what makes the cache key
insensitive to insertion order. -/

/-- JSON values as produced by the request serializer: strings, ints,
arrays and objects cover the validated search payload. -/
inductive Json where
  | str (s : String)
  | num (n : Int)
  | arr (items : List Json)
  | obj (entries : List (String × Json))

/-- Lowercase hexadecimal digit. -/
def hexDigitChar (n : Nat) : Char :=
  if n < 10 then Char.ofNat (48 + n) else Char.ofNat (87 + n)

/-- Lowercase hexadecimal, zero-padded to four digits (the uXXXX escapes). -/
def hex4 (n : Nat) : String :=
  String.mk [hexDigitChar (n / 4096 % 16), hexDigitChar (n / 256 % 16),
             hexDigitChar (n / 16 % 16), hexDigitChar (n % 16)]

/-- Escape one character the way json.dumps does with ensure_ascii: the
two-character shortcuts, uXXXX for other control and non-ASCII
characters (surrogate pairs above the BMP), everything else literal. -/
def escapeJChar (c : Char) : String :=
  if c = '"' then "\\\""
  else if c = '\\' then "\\\\"
  else if c = '\n' then "\\n"
  else if c = '\r' then "\\r"
  else if c = '\t' then "\\t"
  else if c = '\x08' then "\\b"
  else if c = '\x0c' then "\\f"
  else if c.toNat < 32 then "\\u" ++ hex4 c.toNat
  else if c.toNat < 127 then String.singleton c
  else if c.toNat < 65536 then "\\u" ++ hex4 c.toNat
  else
    let v := c.toNat - 65536
    "\\u" ++ hex4 (55296 + v / 1024) ++ "\\u" ++ hex4 (56320 + v % 1024)

/-- JSON string literal rendering. -/
def renderJStr (s : String) : String :=
  "\"" ++ String.join (s.toList.map escapeJChar) ++ "\""

/-- Comma-space separated join (the default json.dumps item separator). -/
def joinComma : List String → String
  | [] => ""
  | [s] => s
  | s :: rest => s ++ ", " ++ joinComma rest

/-- Lexicographic code-point comparison of character lists (Python's
string ordering, used by sorted on dictionary keys). -/
def lexLe : List Char → List Char → Bool
  | [], _ => true
  | _ :: _, [] => false
  | a :: as, b :: bs =>
    if a.toNat < b.toNat then true
    else if b.toNat < a.toNat then false
    else lexLe as bs

/-- Python string less-or-equal. -/
def strLe (a b : String) : Bool := lexLe a.toList b.toList

/-- Insert a pair into a key-sorted list, before the first strictly
larger key (stable insertion). -/
def insertByKey {β : Type} (x : String × β) : List (String × β) → List (String × β)
  | [] => [x]
  | y :: ys => if strLe x.1 y.1 then x :: y :: ys else y :: insertByKey x ys

/-- Stable insertion sort by key, embedding sorted(d.items()) for the
distinct keys of a Python dictionary. -/
def sortByKey {β : Type} (l : List (String × β)) : List (String × β) :=
  l.foldr insertByKey []

mutual

/-- Embeds json.dumps(v, sort_keys=True) with the default separators:
every object lists its entries in sorted key order. -/
def Json.dumps : Json → String
  | .str s => renderJStr s
  | .num n => toString n
  | .arr items => "[" ++ joinComma (dumpsList items) ++ "]"
  | .obj entries =>
    "\x7b" ++ joinComma ((sortByKey (renderEntries entries)).map (fun p => p.2)) ++ "\x7d"

/-- Serializations of the items of a JSON array, in order. -/
def dumpsList : List Json → List String
  | [] => []
  | j :: js => Json.dumps j :: dumpsList js

/-- Rendered entries of a JSON object, each keyed for sorting. -/
def renderEntries : List (String × Json) → List (String × String)
  | [] => []
  | kv :: rest => (kv.1, renderJStr kv.1 ++ ": " ++ Json.dumps kv.2) :: renderEntries rest

end

mutual

/-- Recursively sort every object's entries by key: the canonical form
of a JSON value under insertion-order permutation of its objects. -/
def Json.normalize : Json → Json
  | .str s => .str s
  | .num n => .num n
  | .arr items => .arr (normalizeList items)
  | .obj entries => .obj (sortByKey (normalizeEntries entries))

/-- Normalized items of a JSON array. -/
def normalizeList : List Json → List Json
  | [] => []
  | j :: js => Json.normalize j :: normalizeList js

/-- Normalized entries of a JSON object (values only; order is left to
the enclosing sort). -/
def normalizeEntries : List (String × Json) → List (String × Json)
  | [] => []
  | kv :: rest => (kv.1, Json.normalize kv.2) :: normalizeEntries rest

end

/-! ### hashlib.md5

Bytes are naturals below 256, 32-bit words are naturals reduced modulo
2^32; the sine-derived constant table is written out. -/

/-- Bitwise complement on 32-bit words. -/
def not32 (x : Nat) : Nat := 4294967295 - x

/-- Left rotation of a 32-bit word. -/
def rotl32 (x n : Nat) : Nat := (x * 2 ^ n + x / 2 ^ (32 - n)) % 4294967296

/-- The 64 sine-derived MD5 constants, floor(abs(sin(i+1)) * 2^32). -/
def md5K : List Nat :=
  [3614090360, 3905402710, 606105819, 3250441966,
   4118548399, 1200080426, 2821735955, 4249261313,
   1770035416, 2336552879, 4294925233, 2304563134,
   1804603682, 4254626195, 2792965006, 1236535329,
   4129170786, 3225465664, 643717713, 3921069994,
   3593408605, 38016083, 3634488961, 3889429448,
   568446438, 3275163606, 4107603335, 1163531501,
   2850285829, 4243563512, 1735328473, 2368359562,
   4294588738, 2272392833, 1839030562, 4259657740,
   2763975236, 1272893353, 4139469664, 3200236656,
   681279174, 3936430074, 3572445317, 76029189,
   3654602809, 3873151461, 530742520, 3299628645,
   4096336452, 1126891415, 2878612391, 4237533241,
   1700485571, 2399980690, 4293915773, 2240044497,
   1873313359, 4264355552, 2734768916, 1309151649,
   4149444226, 3174756917, 718787259, 3951481745]

/-- Per-round rotation amounts. -/
def md5Shift (i : Nat) : Nat :=
  let j := i % 4
  if i < 16 then List.getD [7, 12, 17, 22] j 0
  else if i < 32 then List.getD [5, 9, 14, 20] j 0
  else if i < 48 then List.getD [4, 11, 16, 23] j 0
  else List.getD [6, 10, 15, 21] j 0

/-- Message-word schedule. -/
def md5MsgIdx (i : Nat) : Nat :=
  if i < 16 then i
  else if i < 32 then (5 * i + 1) % 16
  else if i < 48 then (3 * i + 5) % 16
  else (7 * i) % 16

/-- The four round functions F, G, H, I. -/
def md5Mix (i b c d : Nat) : Nat :=
  if i < 16 then (b &&& c) ||| (not32 b &&& d)
  else if i < 32 then (d &&& b) ||| (not32 d &&& c)
  else if i < 48 then b ^^^ c ^^^ d
  else c ^^^ (b ||| not32 d)

/-- One of the 64 MD5 rounds on the running (A, B, C, D) state. -/
def md5Step (m : List Nat) (st : Nat × Nat × Nat × Nat) (i : Nat) :
    Nat × Nat × Nat × Nat :=
  let a := st.1
  let b := st.2.1
  let c := st.2.2.1
  let d := st.2.2.2
  let f := md5Mix i b c d
  let sum := (a + f + List.getD md5K i 0 + List.getD m (md5MsgIdx i) 0) % 4294967296
  let b2 := (b + rotl32 sum (md5Shift i)) % 4294967296
  (d, b2, b, c)

/-- Group 64 bytes into 16 little-endian 32-bit words. -/
def bytesToWords : List Nat → List Nat
  | b0 :: b1 :: b2 :: b3 :: rest =>
    (b0 + 256 * b1 + 65536 * b2 + 16777216 * b3) :: bytesToWords rest
  | _ => []

/-- Compress one 64-byte block into the state. -/
def md5Block (st : Nat × Nat × Nat × Nat) (block : List Nat) : Nat × Nat × Nat × Nat :=
  let m := bytesToWords block
  let r := (List.range 64).foldl (md5Step m) st
  ((st.1 + r.1) % 4294967296, (st.2.1 + r.2.1) % 4294967296,
   (st.2.2.1 + r.2.2.1) % 4294967296, (st.2.2.2 + r.2.2.2) % 4294967296)

/-- Fold the compression over every 64-byte block (fuel-bounded; each
step consumes 64 bytes, so the byte count is always enough fuel). -/
def md5BlocksGo : Nat → (Nat × Nat × Nat × Nat) → List Nat → Nat × Nat × Nat × Nat
  | _, st, [] => st
  | 0, st, _ => st
  | fuel + 1, st, bytes => md5BlocksGo fuel (md5Block st (bytes.take 64)) (bytes.drop 64)

/-- Fold the compression over every 64-byte block. -/
def md5Blocks (st : Nat × Nat × Nat × Nat) (bytes : List Nat) : Nat × Nat × Nat × Nat :=
  md5BlocksGo bytes.length st bytes

/-- MD5 padding: 0x80, zeros to 56 mod 64, then the bit length as eight
little-endian bytes. -/
def md5Pad (msg : List Nat) : List Nat :=
  let len := msg.length
  let zeros := (119 - len % 64) % 64
  let bitLen := (8 * len) % (2 ^ 64)
  msg ++ [128] ++ List.replicate zeros 0 ++
    ((List.range 8).map fun i => bitLen / 256 ^ i % 256)

/-- UTF-8 bytes of one character (str.encode()). -/
def utf8Bytes (c : Char) : List Nat :=
  let n := c.toNat
  if n < 128 then [n]
  else if n < 2048 then [192 + n / 64, 128 + n % 64]
  else if n < 65536 then [224 + n / 4096, 128 + n / 64 % 64, 128 + n % 64]
  else [240 + n / 262144, 128 + n / 4096 % 64, 128 + n / 64 % 64, 128 + n % 64]

/-- UTF-8 bytes of a string. -/
def strBytes (s : String) : List Nat := s.toList.flatMap utf8Bytes

/-- Two lowercase hex digits of a byte. -/
def byteHex (b : Nat) : String := String.mk [hexDigitChar (b / 16 % 16), hexDigitChar (b % 16)]

/-- Little-endian hex of one 32-bit word. -/
def wordLEHex (w : Nat) : String :=
  byteHex (w % 256) ++ byteHex (w / 256 % 256) ++
    byteHex (w / 65536 % 256) ++ byteHex (w / 16777216 % 256)

/-- Embeds hashlib.md5(s.encode()).hexdigest(). -/
def md5hex (s : String) : String :=
  let bytes := md5Pad (strBytes s)
  let r := md5Blocks (1732584193, 4023233417, 2562383102, 271733878) bytes
  wordLEHex r.1 ++ wordLEHex r.2.1 ++ wordLEHex r.2.2.1 ++ wordLEHex r.2.2.2

/-- Embeds FlightSearchView._generate_cache_key (src/api/views.py:87-91):
MD5 of the sorted-keys JSON serialization of the validated data, behind
a constant namespace prefix. -/
def generate_cache_key (data : Json) : String :=
  "flights_search_" ++ md5hex (Json.dumps data)

/-! ### The validated search payload -/

/-- The validated_data produced by FlightSearchSerializer
(src/api/serializers.py:12-26). -/
structure SearchData where
  legs : List Leg
  ADT : Int
  CNN : Int
  INF : Int
  cabin : String
deriving Repr, DecidableEq

/-- JSON value of one leg dictionary, in LegSerializer field order. -/
def legToJson (l : Leg) : Json :=
  Json.obj [("origin", Json.str l.origin), ("destination", Json.str l.destination),
            ("date", Json.str l.date)]

/-- JSON value of the validated search payload, in serializer field
order (the insertion order of validated_data). -/
def searchDataToJson (sd : SearchData) : Json :=
  Json.obj [("legs", Json.arr (sd.legs.map legToJson)), ("ADT", Json.num sd.ADT),
            ("CNN", Json.num sd.CNN), ("INF", Json.num sd.INF),
            ("cabin", Json.str sd.cabin)]

/-! ### Browser session behavior and FlightParser.run

The external site and browser session are modelled by the observable
branch points the pipeline reacts to: what the content wait sees, which
ticket cards the page ends up holding, and whether navigation or the
expansion wait raise.  The scroll loop only settles the card list and
has no data-flow of its own. -/

/-- What the 60-second wait for the final progress bar or the
nothing-found block observes. -/
inductive ContentSignal where
  | bestDeals
  | nothingFound
  | timeoutNoSignal
deriving Repr, DecidableEq

/-- One search's browser-session behavior. -/
structure PageBehavior where
  navigationFails : Bool
  contentSignal : ContentSignal
  cards : List RawTicket
  expandTimesOut : Bool
deriving Repr, DecidableEq

/-- Embeds FlightParser._wait_for_content (src/flights/services.py:177-206):
True only for the best-deals marker; the nothing-found marker returns
False, and a timeout raises inside the try and is caught, also
returning False — the two are indistinguishable to the caller. -/
def wait_for_content : ContentSignal → Bool
  | ContentSignal.bestDeals => true
  | ContentSignal.nothingFound => false
  | ContentSignal.timeoutNoSignal => false

/-- Error text of the playwright TimeoutError raised by
page.wait_for_function in _expand_all_tickets when the expanded count
never reaches the clicked count (src/flights/services.py:242-248).
There is no try around it, so it propagates. -/
def expandTimeoutMsg : String := "Page.wait_for_function: Timeout 50000ms exceeded."

/-- Embeds FlightParser._parse_results (src/flights/services.py:458-485)
as a fallible computation: an early empty list when the content wait
returned False, the expansion-timeout exception, or the chunked
extraction of the settled cards. -/
def parse_results (page : PageBehavior) (searchLegs : List Leg) :
    Except String (List TicketDict) :=
  if wait_for_content page.contentSignal = false then Except.ok []
  else if page.expandTimesOut then Except.error expandTimeoutMsg
  else Except.ok (processChunks page.cards searchLegs 25)

/-- What FlightParser.run returns to the view: a (non-empty) list of
ticket dictionaries, the literal no-flights string, or the error string
built by the except branch. -/
inductive RunOutcome where
  | flights (l : List TicketDict)
  | noFlightsMsg
  | errorMsg (e : String)
deriving Repr, DecidableEq

/-- Embeds FlightParser.run (src/flights/services.py:487-516): the try
covers navigation, parsing and persistence; a non-empty parse saves to
the database and returns the list, an empty parse returns the
no-flights string, and any raised exception is formatted into the
generic error string. -/
def parserRun (page : PageBehavior) (db : DB) (searchLegs : List Leg) : RunOutcome × DB :=
  if page.navigationFails then (RunOutcome.errorMsg "Ошибка: navigation failed", db)
  else
    match parse_results page searchLegs with
    | Except.error e => (RunOutcome.errorMsg ("Ошибка: " ++ e), db)
    | Except.ok flightsList =>
      if 0 < flightsList.length then
        (RunOutcome.flights flightsList, save_flights_to_db db flightsList)
      else (RunOutcome.noFlightsMsg, db)

/-! ### The Django cache and FlightSearchView.post

Locks and results share the one Django cache; it is an association list
from keys to stored values.  Expiry timestamps have no counterpart in
the untimed model (claims never depend on expiry). -/

/-- Values the view stores in the cache. -/
inductive CacheVal where
  | flights (l : List TicketDict)
  | noFlightsMarker
  | lockMarker
deriving Repr, DecidableEq

/-- Python truthiness of a cached value, as tested by if cached_data:
(an empty list is falsy; the marker and lock strings are non-empty). -/
def cacheTruthy : CacheVal → Bool
  | CacheVal.flights l => !l.isEmpty
  | CacheVal.noFlightsMarker => true
  | CacheVal.lockMarker => true

/-- The shared cache state. -/
def Cache : Type := List (String × CacheVal)

/-- cache.get(key): None on a miss. -/
def cacheGet (c : Cache) (k : String) : Option CacheVal :=
  (List.find? (fun p => p.1 = k) c).map (fun p => p.2)

/-- cache.add(key, value): atomic create-if-absent; True iff it wrote. -/
def cacheAdd (c : Cache) (k : String) (v : CacheVal) : Bool × Cache :=
  match cacheGet c k with
  | some _ => (false, c)
  | none => (true, (k, v) :: c)

/-- cache.set(key, value): overwrite or insert. -/
def cacheSet (c : Cache) (k : String) (v : CacheVal) : Cache :=
  if (List.find? (fun p => p.1 = k) c).isSome then
    List.map (fun p => if p.1 = k then (k, v) else p) c
  else (k, v) :: c

/-- cache.delete(key): unconditional removal. -/
def cacheDelete (c : Cache) (k : String) : Cache :=
  List.filter (fun p => ¬ p.1 = k) c

/-- Observable side-effecting steps of one post() execution, in order:
the successful lock write, the result-cache read, the browser run, the
result-cache write, and the lock delete. -/
inductive Ev where
  | addLock
  | getResult
  | runBrowser
  | setResult
  | delLock
deriving Repr, DecidableEq

/-- Response bodies the view can build. -/
inductive RespBody where
  | payload (v : CacheVal)
  | detailMsg (s : String)
  | fieldErrors
deriving Repr, DecidableEq

/-- An HTTP response: status code and body. -/
structure Resp where
  code : Nat
  body : RespBody
deriving Repr, DecidableEq

/-- Everything one post() execution produces: the response, the final
cache and database states, and the event trace. -/
structure PostResult where
  resp : Resp
  cache : Cache
  db : DB
  events : List Ev

/-- Embeds FlightSearchView.post (src/api/views.py:32-85).  lockId is
the lock_guest_/lock_ key derived from the requester identity;
validated is serializer.is_valid() paired with validated_data; page is
the browser behavior parser.run would encounter.  The order of effects
follows the source: the lock is attempted first, validation runs after
the lock is held, the result cache is consulted only for valid
requests, and only list or no-flights outcomes are written back. -/
def post (c : Cache) (db : DB) (lockId : String) (validated : Option SearchData)
    (page : PageBehavior) : PostResult :=
  let added := cacheAdd c lockId CacheVal.lockMarker
  if !added.1 then
    { resp := { code := 409,
                body := RespBody.detailMsg "Парсинг уже запущен. Пожалуйста, подождите завершения." }
      cache := added.2, db := db, events := [] }
  else
    match validated with
    | some sd =>
      let key := generate_cache_key (searchDataToJson sd)
      let hit :=
        match cacheGet added.2 key with
        | some v => if cacheTruthy v then some v else none
        | none => none
      match hit with
      | some v =>
        { resp := { code := 200, body := RespBody.payload v }
          cache := cacheDelete added.2 lockId, db := db
          events := [Ev.addLock, Ev.getResult, Ev.delLock] }
      | none =>
        let r := parserRun page db sd.legs
        match r.1 with
        | RunOutcome.flights l =>
          { resp := { code := 200, body := RespBody.payload (CacheVal.flights l) }
            cache := cacheDelete (cacheSet added.2 key (CacheVal.flights l)) lockId
            db := r.2
            events := [Ev.addLock, Ev.getResult, Ev.runBrowser, Ev.setResult, Ev.delLock] }
        | RunOutcome.noFlightsMsg =>
          { resp := { code := 200, body := RespBody.payload CacheVal.noFlightsMarker }
            cache := cacheDelete (cacheSet added.2 key CacheVal.noFlightsMarker) lockId
            db := r.2
            events := [Ev.addLock, Ev.getResult, Ev.runBrowser, Ev.setResult, Ev.delLock] }
        | RunOutcome.errorMsg e =>
          { resp := { code := 400, body := RespBody.detailMsg e }
            cache := cacheDelete added.2 lockId, db := r.2
            events := [Ev.addLock, Ev.getResult, Ev.runBrowser, Ev.delLock] }
    | none =>
      { resp := { code := 400, body := RespBody.fieldErrors }
        cache := added.2, db := db, events := [Ev.addLock] }

/-! ## Theorems -/

/-! ### C7: trip-type classification -/

/-- C7: trip classification is total and exhaustive over leg lists:
exactly one leg classifies as one-way; exactly two legs where the
second mirrors the first's airports classify as a return trip; every
other shape classifies as multi-city. -/
theorem trip_classification_spec (legs : List Leg) :
    (legs.length = 1 → determineTripType legs = "one-way") ∧
    (∀ l1 l2, legs = [l1, l2] → l2.destination = l1.origin → l2.origin = l1.destination →
      determineTripType legs = "return") ∧
    (legs.length ≠ 1 →
      (∀ l1 l2, legs = [l1, l2] → ¬(l2.destination = l1.origin ∧ l2.origin = l1.destination)) →
      determineTripType legs = "multi-city") := by
  refine ⟨?_, ?_, ?_⟩
  · intro h
    match legs, h with
    | [a], _ => rfl
  · rintro l1 l2 rfl h1 h2
    simp [determineTripType, h1, h2]
  · intro h1 h2
    match legs with
    | [] => rfl
    | [a] => exact absurd rfl h1
    | [a, b] =>
      have hmir := h2 a b rfl
      have hcond : ¬(a.origin = b.destination ∧ a.destination = b.origin) :=
        fun hc => hmir ⟨hc.1.symm, hc.2.symm⟩
      simp [determineTripType, hcond]
    | a :: b :: c :: rest => simp [determineTripType]

/-- Witness for C7 at concrete one-way, return and multi-city requests. -/
theorem trip_classification_spec_witness :
    determineTripType [⟨"JFK", "LHR", "2026-01-15"⟩] = "one-way" ∧
    determineTripType [⟨"JFK", "LHR", "2026-01-15"⟩, ⟨"LHR", "JFK", "2026-02-01"⟩] = "return" ∧
    determineTripType [⟨"JFK", "LHR", "2026-01-15"⟩, ⟨"LHR", "DXB", "2026-02-01"⟩] = "multi-city" :=
  ⟨(trip_classification_spec _).1 rfl,
   (trip_classification_spec _).2.1 _ _ rfl rfl rfl,
   (trip_classification_spec _).2.2 (by decide)
     (by intro l1 l2 h hc; cases h; revert hc; decide)⟩

/-! ### C8: date normalization in the URL builder -/

/-- Inversion for the literal matcher. -/
theorem matchLit_shape (c : Char) (l r : List Char) (h : r ∈ matchLit c l) : l = c :: r := by
  cases l with
  | nil => simp [matchLit] at h
  | cons c1 rest =>
    by_cases hc : c1 = c
    · simp [matchLit, hc] at h
      rw [hc, h]
    · simp [matchLit, hc] at h

/-- Membership in a conditional singleton-or-empty list. -/
theorem mem_ite_nil {α : Type} {x : α} {c : Prop} [Decidable c] {l : List α}
    (h : x ∈ (if c then l else [])) : c ∧ x ∈ l := by
  by_cases hc : c
  · rw [if_pos hc] at h
    exact ⟨hc, h⟩
  · rw [if_neg hc] at h
    cases h

/-- Inversion for the %m matcher: it consumes one or two characters. -/
theorem matchM_shape (l : List Char) (v : Nat) (r : List Char) (h : (v, r) ∈ matchM l) :
    (∃ c1 c2 rest, l = c1 :: c2 :: rest ∧ (r = rest ∨ r = c2 :: rest)) ∨
    (∃ c1, l = [c1] ∧ r = []) := by
  match l with
  | [] => simp [matchM] at h
  | [c1] =>
    right
    refine ⟨c1, rfl, ?_⟩
    simp only [matchM] at h
    have hp := (mem_ite_nil h).2
    simp only [List.mem_singleton, Prod.mk.injEq] at hp
    exact hp.2
  | c1 :: c2 :: rest =>
    left
    refine ⟨c1, c2, rest, rfl, ?_⟩
    simp only [matchM, List.mem_append] at h
    rcases h with (h | h) | h
    · have hp := (mem_ite_nil h).2
      simp only [List.mem_singleton, Prod.mk.injEq] at hp
      exact Or.inl hp.2
    · have hp := (mem_ite_nil h).2
      simp only [List.mem_singleton, Prod.mk.injEq] at hp
      exact Or.inl hp.2
    · have hp := (mem_ite_nil h).2
      simp only [List.mem_singleton, Prod.mk.injEq] at hp
      exact Or.inr hp.2

/-- Inversion for the %Y matcher: four digit characters precede the rest. -/
theorem matchY_shape (l : List Char) (v : Nat) (r : List Char) (h : (v, r) ∈ matchY l) :
    ∃ c1 c2 c3 c4, l = c1 :: c2 :: c3 :: c4 :: r ∧
      charBetween c2 '0' '9' = true ∧ charBetween c3 '0' '9' = true := by
  match l with
  | [] => simp [matchY] at h
  | [c1] => simp [matchY] at h
  | [c1, c2] => simp [matchY] at h
  | [c1, c2, c3] => simp [matchY] at h
  | c1 :: c2 :: c3 :: c4 :: rest =>
    refine ⟨c1, c2, c3, c4, ?_⟩
    simp only [matchY] at h
    have hc := mem_ite_nil h
    have hp := hc.2
    simp only [List.mem_singleton, Prod.mk.injEq] at hp
    have hcond := hc.1
    simp only [Bool.and_eq_true] at hcond
    exact ⟨by rw [hp.2], hcond.1.1.2, hcond.1.2⟩

/-- The %m/%d/%Y pattern puts a slash at index 1 or 2, while %Y-%m-%d
needs digits there, so no input matches both formats. -/
theorem ymd_mdy_exclusive (s : List Char) (h : parseMdyMatches s ≠ []) :
    parseYmdMatches s = [] := by
  by_contra hy
  obtain ⟨x, hx⟩ := List.exists_mem_of_ne_nil _ hy
  obtain ⟨w, hw⟩ := List.exists_mem_of_ne_nil _ h
  simp only [parseYmdMatches, List.mem_flatMap, List.mem_filterMap] at hx
  obtain ⟨yr, hyr, r2, hr2, mr, hmr, r4, hr4, dr, hdr, hend⟩ := hx
  obtain ⟨d1, d2, d3, d4, hseq, hd2, hd3⟩ :=
    matchY_shape s yr.1 yr.2 (by rwa [Prod.mk.eta])
  simp only [parseMdyMatches, List.mem_flatMap, List.mem_filterMap] at hw
  obtain ⟨mr2, hmr2, rr2, hrr2, dr2, hdr2, rr4, hrr4, yr2, hyr2, hend2⟩ := hw
  have hsl := matchLit_shape '/' mr2.2 rr2 hrr2
  rcases matchM_shape s mr2.1 mr2.2 (by rwa [Prod.mk.eta]) with
    ⟨c1, c2, rest, hs2, hr | hr⟩ | ⟨c1, hs2, hr⟩
  · have hrest : rest = '/' :: rr2 := hr.symm.trans hsl
    have hall : c1 :: c2 :: '/' :: rr2 = d1 :: d2 :: d3 :: d4 :: yr.2 := by
      rw [← hrest, ← hs2, hseq]
    injection hall with e1 t1
    injection t1 with e2 t2
    injection t2 with e3 t3
    rw [← e3] at hd3
    exact absurd hd3 (by decide)
  · have hc2 : c2 :: rest = '/' :: rr2 := hr.symm.trans hsl
    injection hc2 with e2c t2c
    have hall : c1 :: '/' :: rest = d1 :: d2 :: d3 :: d4 :: yr.2 := by
      rw [← e2c, ← hs2, hseq]
    injection hall with e1 t1
    injection t1 with e2 t2
    rw [← e2] at hd2
    exact absurd hd2 (by decide)
  · rw [hr] at hsl
    simp at hsl

/-- A successful %m/%d/%Y parse implies the %Y-%m-%d parse raised. -/
theorem strptimeMdy_imp_ymd_none (s : String) (y m d : Nat)
    (h : strptimeMdy s = some (y, m, d)) : strptimeYmd s = none := by
  have hne : parseMdyMatches s.toList ≠ [] := by
    intro hnil
    simp only [strptimeMdy] at h
    rw [hnil] at h
    simp at h
  have hz := ymd_mdy_exclusive _ hne
  simp only [strptimeYmd]
  rw [hz]

/-- C8: _format_date maps every string the %Y-%m-%d strptime accepts,
and every string the %m/%d/%Y strptime accepts, to the strftime
%Y-%m-%d rendering of the parsed date — the same output for the same
date — and raises the unsupported-format ValueError exactly when both
strptime calls fail. -/
theorem format_date_spec :
    (∀ s y m d, strptimeYmd s = some (y, m, d) → format_date s = Except.ok (fmtYmd y m d)) ∧
    (∀ s y m d, strptimeMdy s = some (y, m, d) → format_date s = Except.ok (fmtYmd y m d)) ∧
    (∀ s, strptimeYmd s = none → strptimeMdy s = none →
      format_date s = Except.error ("Неподдерживаемый формат даты: " ++ s)) := by
  refine ⟨?_, ?_, ?_⟩
  · intro s y m d h
    simp [format_date, h]
  · intro s y m d h
    have h2 := strptimeMdy_imp_ymd_none s y m d h
    simp [format_date, h2, h]
  · intro s h1 h2
    simp [format_date, h1, h2]

/-- Witness for C8: the spec's example pair in both formats yields the
same 2026-01-15, and a dotted date raises. -/
theorem format_date_spec_witness :
    format_date "2026-01-15" = Except.ok (fmtYmd 2026 1 15) ∧
    format_date "01/15/2026" = Except.ok (fmtYmd 2026 1 15) ∧
    format_date "15.01.2026" = Except.error ("Неподдерживаемый формат даты: " ++ "15.01.2026") :=
  ⟨format_date_spec.1 "2026-01-15" 2026 1 15 (by decide),
   format_date_spec.2.1 "01/15/2026" 2026 1 15 (by decide),
   format_date_spec.2.2 "15.01.2026" (by decide) (by decide)⟩

/-! ### C5: idempotent replace-children upsert -/

/-- Rows keyed by a uid vanish after filtering that uid away. -/
theorem segsFilter_erase_self (l : List (String × Segment)) (u : String) :
    List.filter (fun p => decide (p.1 = u)) (List.filter (fun p => decide (¬ p.1 = u)) l) = [] := by
  rw [List.filter_filter]
  rw [List.filter_eq_nil_iff]
  intro a ha
  by_cases hau : a.1 = u <;> simp [hau]

/-- Filtering away a different uid leaves a uid's rows unchanged. -/
theorem segsFilter_erase_other (l : List (String × Segment)) (u t : String) (h : ¬ t = u) :
    List.filter (fun p => decide (p.1 = u)) (List.filter (fun p => decide (¬ p.1 = t)) l) =
    List.filter (fun p => decide (p.1 = u)) l := by
  rw [List.filter_filter]
  apply List.filter_congr
  intro a ha
  by_cases hau : a.1 = u
  · have hut : ¬ u = t := fun hc => h hc.symm
    simp [hau, hut]
  · simp [hau]

/-- The freshly inserted rows of one ticket, filtered by a uid. -/
theorem segsFilter_newRows (segs : List Segment) (t u : String) :
    List.filter (fun p => decide (p.1 = u)) (segs.map (fun s => (t, s))) =
    if t = u then segs.map (fun s => (t, s)) else [] := by
  induction segs with
  | nil => simp
  | cons s rest ih =>
    by_cases ht : t = u <;> simp [List.filter_cons, ht, ih]

/-- Effect of one loop iteration on the stored segments of one uid:
the processed ticket's uid now holds exactly the fresh segments, every
other uid is untouched. -/
theorem segsForUid_saveTicketParts (db : DB) (td : TicketDict) (segs : List Segment) (u : String) :
    segsForUid (saveTicketParts db td segs) u =
      if td.ticket_uid = u then segs else segsForUid db u := by
  unfold saveTicketParts segsForUid
  simp only [List.filter_append, List.map_append]
  by_cases h : td.ticket_uid = u
  · rw [if_pos h, h]
    rw [segsFilter_erase_self, segsFilter_newRows]
    simp [List.map_map, Function.comp]
  · rw [if_neg h]
    rw [segsFilter_erase_other _ _ _ h, segsFilter_newRows, if_neg h]
    simp

/-- Effect of the whole batch loop on one uid: the last batch entry
with that uid wins; a uid absent from the batch keeps its prior rows. -/
theorem segsForUid_foldl (batch : List TicketDict) (db : DB) (u : String) :
    segsForUid (batch.foldl saveTicketToDb db) u =
      match (batch.filter (fun x => decide (x.ticket_uid = u))).getLast? with
      | some t => t.segments.getD []
      | none => segsForUid db u := by
  induction batch using List.reverseRecOn generalizing db with
  | nil => rfl
  | append_singleton l a ih =>
    rw [List.foldl_append, List.foldl_cons, List.foldl_nil]
    have hstep : segsForUid (saveTicketToDb (l.foldl saveTicketToDb db) a) u =
        if a.ticket_uid = u then a.segments.getD []
        else segsForUid (l.foldl saveTicketToDb db) u := by
      unfold saveTicketToDb
      exact segsForUid_saveTicketParts _ _ _ u
    rw [hstep, List.filter_append]
    by_cases ha : a.ticket_uid = u
    · rw [if_pos ha]
      have : List.filter (fun x => decide (x.ticket_uid = u)) [a] = [a] := by
        simp [List.filter_cons, ha]
      rw [this, List.getLast?_concat]
    · rw [if_neg ha]
      have : List.filter (fun x => decide (x.ticket_uid = u)) [a] = [] := by
        simp [List.filter_cons, ha]
      rw [this, List.append_nil, ih]

/-- C5: the persistence upsert is idempotent per ticket uid: after one
run of a batch, and equally after running the same batch twice, the
stored segment set of every uid that occurs in the batch is exactly the
segment list of the last batch dictionary carrying that uid — old
segments are deleted before the new ones are inserted, so nothing
stale or duplicated survives. -/
theorem upsert_idempotent_per_uid (db : DB) (batch : List TicketDict) (u : String)
    (t : TicketDict)
    (hlast : (batch.filter (fun x => decide (x.ticket_uid = u))).getLast? = some t) :
    segsForUid (save_flights_to_db db batch) u = t.segments.getD [] ∧
    segsForUid (save_flights_to_db (save_flights_to_db db batch) batch) u =
      t.segments.getD [] := by
  have hne : batch ≠ [] := by
    intro hb
    subst hb
    simp at hlast
  have hgen : ∀ d : DB, segsForUid (save_flights_to_db d batch) u = t.segments.getD [] := by
    intro d
    unfold save_flights_to_db
    rw [if_neg (by simpa using hne)]
    rw [segsForUid_foldl, hlast]
  exact ⟨hgen db, hgen _⟩

/-- Fixture: a parsed one-way ticket with two segments. -/
def ticketT1 : TicketDict :=
  { validating_airline := "British Airways"
    ticket_uid := "T1"
    price := PyFloat.num ⟨999, 0⟩
    route_type := "one-way"
    segments := some
      [⟨"British Airways", "JFK", "2026-01-15 10:30", "LHR", "2026-01-15 22:05", 0⟩,
       ⟨"American", "LHR", "2026-02-01 09:00", "JFK", "2026-02-01 12:00", 1⟩] }

/-- Fixture: a database already holding a stale segment for uid T1. -/
def staleDB : DB :=
  { tickets := [("T1", ⟨"Old Carrier", PyFloat.num ⟨5, 0⟩, "one-way"⟩)]
    segments := [("T1", ⟨"Old Carrier", "AAA", "2020-01-01 00:00", "BBB", "2020-01-01 01:00", 0⟩)] }

/-- Witness for C5 on a concrete stale database and a one-ticket batch,
run once and twice. -/
theorem upsert_idempotent_per_uid_witness :
    segsForUid (save_flights_to_db staleDB [ticketT1]) "T1" = ticketT1.segments.getD [] ∧
    segsForUid (save_flights_to_db (save_flights_to_db staleDB [ticketT1]) [ticketT1]) "T1" =
      ticketT1.segments.getD [] :=
  upsert_idempotent_per_uid staleDB [ticketT1] "T1" ticketT1 (by decide)

/-! ### C6: extractor tolerance of per-card failures -/

/-- The chunked loop collects exactly the per-card successes, in order,
for any positive chunk size and enough fuel. -/
theorem processChunksGo_eq_filterMap (cs : Nat) (hcs : 0 < cs) (legs : List Leg) :
    ∀ fuel items, List.length items ≤ fuel →
      processChunksGo cs legs fuel items =
        items.filterMap (fun c => extractTicketData c legs) := by
  intro fuel
  induction fuel with
  | zero =>
    intro items h
    have hital : items = [] := List.eq_nil_of_length_eq_zero (Nat.le_zero.mp h)
    subst hital
    rfl
  | succ n ih =>
    intro items h
    match items with
    | [] => rfl
    | c :: rest =>
      show (((c :: rest).take cs).map (fun x => extractTicketData x legs)).filterMap id ++
          processChunksGo cs legs n ((c :: rest).drop cs) = _
      rw [ih ((c :: rest).drop cs) (by
        simp only [List.length_drop, List.length_cons]
        simp only [List.length_cons] at h
        omega)]
      rw [List.filterMap_map]
      have hsplit := List.take_append_drop cs (c :: rest)
      calc (List.take cs (c :: rest)).filterMap (id ∘ fun x => extractTicketData x legs) ++
          (List.drop cs (c :: rest)).filterMap (fun c => extractTicketData c legs)
        = (List.take cs (c :: rest)).filterMap (fun c => extractTicketData c legs) ++
          (List.drop cs (c :: rest)).filterMap (fun c => extractTicketData c legs) := by
            rw [Function.id_comp]
        _ = (List.take cs (c :: rest) ++ List.drop cs (c :: rest)).filterMap
              (fun c => extractTicketData c legs) := (List.filterMap_append _ _ _).symm
        _ = (c :: rest).filterMap (fun c => extractTicketData c legs) := by rw [hsplit]

/-- The chunk loop as called by _parse_results equals a per-card
filterMap. -/
theorem processChunks_eq_filterMap (items : List RawTicket) (legs : List Leg) (cs : Nat)
    (hcs : 0 < cs) :
    processChunks items legs cs = items.filterMap (fun c => extractTicketData c legs) :=
  processChunksGo_eq_filterMap cs hcs legs items.length items (le_refl _)

/-- A filterMap over all-successful items keeps the full length. -/
theorem filterMap_length_of_all_isSome {α β : Type} (f : α → Option β) (l : List α)
    (h : ∀ c ∈ l, (f c).isSome = true) : (l.filterMap f).length = l.length := by
  induction l with
  | nil => rfl
  | cons x rest ih =>
    have hx := h x (List.mem_cons_self x rest)
    obtain ⟨y, hy⟩ := Option.isSome_iff_exists.mp hx
    rw [List.filterMap_cons, hy, List.length_cons,
      ih (fun c hc => h c (List.mem_cons_of_mem _ hc)), List.length_cons]

/-- A card whose cleaned price text float() rejects extracts to the
empty dictionary. -/
theorem extract_none_of_bad_price (card : RawTicket) (legs : List Leg)
    (h : parseFloat (cleanPriceText card.price) = none) :
    extractTicketData card legs = none := by
  unfold extractTicketData
  rw [h]

/-- C6: a batch of cards in which exactly one card fails per-card
extraction (here: float() rejects its cleaned price text) yields one
result per remaining card — the failing card is dropped, nothing
aborts, and no exception escapes (extraction is total by construction
of the try/except embedding). -/
theorem extractor_tolerance (pre post : List RawTicket) (bad : RawTicket) (legs : List Leg)
    (hbad : parseFloat (cleanPriceText bad.price) = none)
    (hpre : ∀ c ∈ pre, (extractTicketData c legs).isSome = true)
    (hpost : ∀ c ∈ post, (extractTicketData c legs).isSome = true) :
    (processChunks (pre ++ bad :: post) legs 25).length = (pre ++ bad :: post).length - 1 := by
  rw [processChunks_eq_filterMap _ _ _ (by norm_num)]
  rw [List.filterMap_append, List.filterMap_cons, extract_none_of_bad_price bad legs hbad]
  rw [List.length_append, filterMap_length_of_all_isSome _ _ hpre,
    filterMap_length_of_all_isSome _ _ hpost]
  simp only [List.length_append, List.length_cons]
  omega

/-- Fixture: a card that extracts successfully. -/
def goodCard : RawTicket :=
  { airline := "British Airways"
    uid := "Ticket ID BA123 Share"
    price := "$1,999.00"
    segments := [] }

/-- Fixture: a card whose price text float() rejects. -/
def badPriceCard : RawTicket :=
  { airline := "American"
    uid := "Ticket ID AA1 Share"
    price := "N/A"
    segments := [] }

/-- Witness for C6: two cards, one bad price, one result. -/
theorem extractor_tolerance_witness :
    (processChunks ([goodCard] ++ badPriceCard :: []) [⟨"JFK", "LHR", "2026-01-15"⟩] 25).length =
      ([goodCard] ++ badPriceCard :: []).length - 1 :=
  extractor_tolerance [goodCard] [] badPriceCard [⟨"JFK", "LHR", "2026-01-15"⟩]
    (by decide) (by decide) (by decide)

/-! ### C10: the persistence step never mutates the caller's payload -/

/-- Setting a cell other than the one read leaves a read unchanged. -/
theorem heapGet_set_ne (l : Heap) (i j : Nat) (x : TicketDict) (hij : j ≠ i) :
    heapGet (List.set l i x) j = heapGet l j := by
  unfold heapGet
  rw [List.getD_eq_getElem?_getD, List.getD_eq_getElem?_getD,
    List.getElem?_set_ne (fun he => hij he.symm)]

/-- The heap loop only writes to the listed copy addresses, so every
other address keeps its value. -/
theorem foldl_heapStep_preserves (r : Nat) (crs : List Nat) (hcrs : ∀ cr ∈ crs, r ≠ cr) :
    ∀ st : Heap × DB,
      heapGet (crs.foldl saveFlightsHeapStep st).1 r = heapGet st.1 r := by
  induction crs with
  | nil =>
    intro st
    rfl
  | cons cr rest ih =>
    intro st
    rw [List.foldl_cons, ih (fun c hc => hcrs c (List.mem_cons_of_mem _ hc))]
    exact heapGet_set_ne _ _ _ _ (hcrs cr (List.mem_cons_self _ _))

/-- C10: the persistence step deep-copies the payload before popping
the segments key, so every dictionary the caller holds — including its
full nested segment list — is unchanged by the save; the list returned
to the view (and written to the result cache) still carries its
segments. -/
theorem save_preserves_caller_dicts (h : Heap) (db : DB) (refs : List Nat) (r : Nat)
    (hr : r < List.length h) :
    heapGet (saveFlightsHeap h db refs).1 r = heapGet h r ∧
    (heapGet (saveFlightsHeap h db refs).1 r).segments = (heapGet h r).segments := by
  have hmain : heapGet (saveFlightsHeap h db refs).1 r = heapGet h r := by
    unfold saveFlightsHeap
    by_cases he : refs.isEmpty
    · rw [if_pos he]
    · rw [if_neg he]
      have hcrs : ∀ cr ∈ (List.range refs.length).map (fun i => i + List.length h), r ≠ cr := by
        intro cr hcr
        simp only [List.mem_map, List.mem_range] at hcr
        obtain ⟨i, _, hi⟩ := hcr
        omega
      rw [foldl_heapStep_preserves r _ hcrs]
      show heapGet (List.append h (refs.map (heapGet h))) r = heapGet h r
      unfold heapGet
      rw [List.getD_eq_getElem?_getD, List.getD_eq_getElem?_getD, List.append_eq,
        List.getElem?_append_left hr]
  exact ⟨hmain, by rw [hmain]⟩

/-- Witness for C10: a two-cell heap whose first cell is saved; both
cells, segments included, survive unchanged. -/
theorem save_preserves_caller_dicts_witness :
    heapGet (saveFlightsHeap [ticketT1, ticketT1] staleDB [0]).1 0 = heapGet [ticketT1, ticketT1] 0 ∧
    (heapGet (saveFlightsHeap [ticketT1, ticketT1] staleDB [0]).1 0).segments =
      (heapGet [ticketT1, ticketT1] 0).segments :=
  save_preserves_caller_dicts [ticketT1, ticketT1] staleDB [0] 0 (by decide)

/-! ### Cache behavior lemmas -/

/-- Deleting a key makes it a miss. -/
theorem cacheGet_delete_self (c : Cache) (k : String) : cacheGet (cacheDelete c k) k = none := by
  unfold cacheGet cacheDelete
  induction c with
  | nil => rfl
  | cons p rest ih =>
    rw [List.filter_cons]
    by_cases hp : p.1 = k
    · have hd : decide (¬ p.1 = k) = false := by simp [hp]
      simp only [hd, Bool.false_eq_true, if_false]
      exact ih
    · have hd : decide (¬ p.1 = k) = true := by simp [hp]
      have hd2 : decide (p.1 = k) = false := by simp [hp]
      simp only [hd, if_true, List.find?_cons, hd2]
      exact ih

/-- Deleting one key leaves other keys untouched. -/
theorem cacheGet_delete_ne (c : Cache) (k k2 : String) (h : ¬ k2 = k) :
    cacheGet (cacheDelete c k) k2 = cacheGet c k2 := by
  unfold cacheGet cacheDelete
  induction c with
  | nil => rfl
  | cons p rest ih =>
    rw [List.filter_cons]
    by_cases hp : p.1 = k
    · have hd : decide (¬ p.1 = k) = false := by simp [hp]
      have hd2 : decide (p.1 = k2) = false := by
        simp only [decide_eq_false_iff_not]
        rw [hp]
        exact fun hc => h hc.symm
      simp only [hd, Bool.false_eq_true, if_false, List.find?_cons, hd2]
      exact ih
    · have hd : decide (¬ p.1 = k) = true := by simp [hp]
      simp only [hd, if_true, List.find?_cons]
      by_cases hp2 : p.1 = k2
      · have hd2 : decide (p.1 = k2) = true := by simp [hp2]
        simp only [hd2]
      · have hd2 : decide (p.1 = k2) = false := by simp [hp2]
        simp only [hd2]
        exact ih

/-- The replacing map of cacheSet puts the new pair where the key was. -/
theorem find?_map_replace (c : Cache) (k : String) (v : CacheVal) :
    (List.find? (fun p => decide (p.1 = k)) c).isSome = true →
    List.find? (fun p => decide (p.1 = k))
        (List.map (fun p => if p.1 = k then (k, v) else p) c) = some (k, v) := by
  induction c with
  | nil =>
    intro hf
    simp at hf
  | cons p rest ih =>
    intro hf
    rw [List.map_cons]
    by_cases hp : p.1 = k
    · rw [if_pos hp]
      simp [List.find?_cons]
    · rw [if_neg hp]
      have hd : decide (p.1 = k) = false := by simp [hp]
      simp only [List.find?_cons, hd]
      apply ih
      simp only [List.find?_cons, hd] at hf
      exact hf

/-- Setting a key makes it hit the new value. -/
theorem cacheGet_set_self (c : Cache) (k : String) (v : CacheVal) :
    cacheGet (cacheSet c k v) k = some v := by
  unfold cacheGet cacheSet
  by_cases hf : (List.find? (fun p => decide (p.1 = k)) c).isSome = true
  · rw [if_pos hf, find?_map_replace c k v hf]
    rfl
  · rw [if_neg hf]
    simp [List.find?_cons]

/-- A fresh entry under a different key does not change a lookup. -/
theorem cacheGet_cons_ne (c : Cache) (k k2 : String) (v : CacheVal) (h : ¬ k2 = k) :
    cacheGet ((k, v) :: c) k2 = cacheGet c k2 := by
  unfold cacheGet
  have hd : decide ((k, v).1 = k2) = false := by
    simp only [decide_eq_false_iff_not]
    exact fun hc => h hc.symm
  simp only [List.find?_cons, hd]

/-! ### C2: lock release on exit paths -/

/-- C2 (amended): on every execution that acquires the lock and passes
validation — cache hit, successful scrape, empty scrape, and scrape
error alike — the lock is deleted before returning; the
validation-failure path, however, returns with the lock still held
(see the counterexample), so release holds only for validated paths. -/
theorem lock_released_on_validated_paths (c : Cache) (db : DB) (lockId : String)
    (sd : SearchData) (page : PageBehavior) (hfree : cacheGet c lockId = none) :
    cacheGet (post c db lockId (some sd) page).cache lockId = none ∧
    Ev.delLock ∈ (post c db lockId (some sd) page).events := by
  have hadd : cacheAdd c lockId CacheVal.lockMarker =
      (true, (lockId, CacheVal.lockMarker) :: c) := by
    unfold cacheAdd
    rw [hfree]
  unfold post
  rw [hadd]
  simp only [Bool.not_true, Bool.false_eq_true, if_false]
  cases hget : cacheGet ((lockId, CacheVal.lockMarker) :: c)
      (generate_cache_key (searchDataToJson sd)) with
  | some v =>
    by_cases htr : cacheTruthy v = true
    · simp only [hget, htr, if_true]
      exact ⟨cacheGet_delete_self _ _, by simp⟩
    · simp only [hget, htr, if_false, Bool.false_eq_true]
      cases hrun : (parserRun page db sd.legs).1 <;>
        simp only [hrun] <;>
        exact ⟨cacheGet_delete_self _ _, by simp⟩
  | none =>
    simp only [hget]
    cases hrun : (parserRun page db sd.legs).1 <;>
      simp only [hrun] <;>
      exact ⟨cacheGet_delete_self _ _, by simp⟩

/-- Fixture: the empty database. -/
def emptyDB : DB := { tickets := [], segments := [] }

/-- Fixture: an uneventful page (content arrives, no cards, no faults). -/
def quietPage : PageBehavior :=
  { navigationFails := false
    contentSignal := ContentSignal.bestDeals
    cards := []
    expandTimesOut := false }

/-- Witness for C2 (amended) at a concrete validated request. -/
theorem lock_released_on_validated_paths_witness :
    cacheGet (post [] emptyDB "lock_1"
      (some ⟨[⟨"JFK", "LHR", "2026-01-15"⟩], 1, 0, 0, "C"⟩) quietPage).cache "lock_1" = none ∧
    Ev.delLock ∈ (post [] emptyDB "lock_1"
      (some ⟨[⟨"JFK", "LHR", "2026-01-15"⟩], 1, 0, 0, "C"⟩) quietPage).events :=
  lock_released_on_validated_paths [] emptyDB "lock_1" _ quietPage (by decide)

/-- Counterexample for C2 as stated: a malformed request (validation
fails) still acquires the lock — the add succeeded, the view returns
the 400 field-errors response — and the lock is left in the cache, so
not every exit path releases it. -/
theorem lock_leak_on_validation_failure :
    (post [] emptyDB "lock_1" none quietPage).resp =
      { code := 400, body := RespBody.fieldErrors } ∧
    cacheGet (post [] emptyDB "lock_1" none quietPage).cache "lock_1" =
      some CacheVal.lockMarker ∧
    Ev.delLock ∉ (post [] emptyDB "lock_1" none quietPage).events := by
  decide

/-! ### C3: what happens before validation rejects a request -/

/-- C3 (amended): a malformed request is rejected before any cache-key
derivation, result-cache read or write, and browser work — the event
trace of the validation-failure path holds nothing but the lock
acquisition — but the per-requester lock IS acquired first: the final
cache is the initial cache plus the lock entry, and the database is
untouched. -/
theorem validation_rejected_before_work (c : Cache) (db : DB) (lockId : String)
    (page : PageBehavior) (hfree : cacheGet c lockId = none) :
    post c db lockId none page =
      { resp := { code := 400, body := RespBody.fieldErrors }
        cache := (lockId, CacheVal.lockMarker) :: c
        db := db
        events := [Ev.addLock] } := by
  have hadd : cacheAdd c lockId CacheVal.lockMarker =
      (true, (lockId, CacheVal.lockMarker) :: c) := by
    unfold cacheAdd
    rw [hfree]
  unfold post
  rw [hadd]
  rfl

/-- Witness for C3 (amended) at a concrete malformed request. -/
theorem validation_rejected_before_work_witness :
    post [] emptyDB "lock_guest_s1" none quietPage =
      { resp := { code := 400, body := RespBody.fieldErrors }
        cache := [("lock_guest_s1", CacheVal.lockMarker)]
        db := emptyDB
        events := [Ev.addLock] } :=
  validation_rejected_before_work [] emptyDB "lock_guest_s1" quietPage (by decide)

/-- Counterexample for C3 as stated: the claim says no lock acquisition
occurs on the validation-error path, but the lock write happens before
serializer.is_valid() is consulted: the trace records the acquisition
and the lock entry is present afterwards. -/
theorem lock_acquired_on_invalid_request :
    Ev.addLock ∈ (post [] emptyDB "lock_guest_s1" none quietPage).events ∧
    cacheGet (post [] emptyDB "lock_guest_s1" none quietPage).cache "lock_guest_s1" =
      some CacheVal.lockMarker := by
  decide

/-! ### C9: a partial-expansion timeout is fatal, not tolerated -/

/-- C9 (amended): when the expansion wait times out, the playwright
TimeoutError propagates out of _expand_all_tickets (there is no
try/except around it): the pipeline aborts without extracting the
already-expanded cards and run returns the generic error string. -/
theorem expansion_timeout_is_fatal (page : PageBehavior) (db : DB) (legs : List Leg)
    (hnav : page.navigationFails = false)
    (hcontent : page.contentSignal = ContentSignal.bestDeals)
    (hexp : page.expandTimesOut = true) :
    parserRun page db legs = (RunOutcome.errorMsg ("Ошибка: " ++ expandTimeoutMsg), db) := by
  unfold parserRun parse_results
  rw [hnav, hcontent, hexp]
  rfl

/-- Fixture: content loaded, one perfectly extractable card, but the
expansion wait times out. -/
def pageExpandTimeout : PageBehavior :=
  { navigationFails := false
    contentSignal := ContentSignal.bestDeals
    cards := [goodCard]
    expandTimesOut := true }

/-- Witness for C9 (amended): the timeout page aborts with the error
string. -/
theorem expansion_timeout_is_fatal_witness :
    parserRun pageExpandTimeout emptyDB [⟨"JFK", "LHR", "2026-01-15"⟩] =
      (RunOutcome.errorMsg ("Ошибка: " ++ expandTimeoutMsg), emptyDB) :=
  expansion_timeout_is_fatal pageExpandTimeout emptyDB _ rfl rfl rfl

/-- Counterexample for C9 as stated: the page holds an already-expanded
card that the extractor handles fine — extraction alone would return
one ticket — yet run returns the error string rather than proceeding
to extract, so a partial-expansion timeout is not tolerated. -/
theorem expansion_timeout_drops_usable_cards :
    (processChunks pageExpandTimeout.cards [⟨"JFK", "LHR", "2026-01-15"⟩] 25).length = 1 ∧
    parserRun pageExpandTimeout emptyDB [⟨"JFK", "LHR", "2026-01-15"⟩] =
      (RunOutcome.errorMsg "Ошибка: Page.wait_for_function: Timeout 50000ms exceeded.",
        emptyDB) := by
  decide

/-! ### C4: which outcomes get cached -/

/-- A content-wait timeout is indistinguishable from the nothing-found
marker inside _wait_for_content, so run maps it to the cacheable
no-flights string. -/
theorem parserRun_timeout_marker (page : PageBehavior) (db : DB) (legs : List Leg)
    (hnav : page.navigationFails = false)
    (hsig : page.contentSignal = ContentSignal.timeoutNoSignal) :
    parserRun page db legs = (RunOutcome.noFlightsMsg, db) := by
  unfold parserRun parse_results
  rw [hnav, hsig]
  rfl

/-- Shape of post on the validated cache-miss path, indexed by the run
outcome. -/
theorem post_miss_eq (c : Cache) (db : DB) (lockId : String) (sd : SearchData)
    (page : PageBehavior) (hfree : cacheGet c lockId = none)
    (hmiss : cacheGet c (generate_cache_key (searchDataToJson sd)) = none)
    (hne : ¬ generate_cache_key (searchDataToJson sd) = lockId) :
    post c db lockId (some sd) page =
      (match parserRun page db sd.legs with
      | (RunOutcome.flights l, db2) =>
        { resp := { code := 200, body := RespBody.payload (CacheVal.flights l) }
          cache := cacheDelete (cacheSet ((lockId, CacheVal.lockMarker) :: c)
            (generate_cache_key (searchDataToJson sd)) (CacheVal.flights l)) lockId
          db := db2
          events := [Ev.addLock, Ev.getResult, Ev.runBrowser, Ev.setResult, Ev.delLock] }
      | (RunOutcome.noFlightsMsg, db2) =>
        { resp := { code := 200, body := RespBody.payload CacheVal.noFlightsMarker }
          cache := cacheDelete (cacheSet ((lockId, CacheVal.lockMarker) :: c)
            (generate_cache_key (searchDataToJson sd)) CacheVal.noFlightsMarker) lockId
          db := db2
          events := [Ev.addLock, Ev.getResult, Ev.runBrowser, Ev.setResult, Ev.delLock] }
      | (RunOutcome.errorMsg e, db2) =>
        { resp := { code := 400, body := RespBody.detailMsg e }
          cache := cacheDelete ((lockId, CacheVal.lockMarker) :: c) lockId
          db := db2
          events := [Ev.addLock, Ev.getResult, Ev.runBrowser, Ev.delLock] }) := by
  have hadd : cacheAdd c lockId CacheVal.lockMarker =
      (true, (lockId, CacheVal.lockMarker) :: c) := by
    unfold cacheAdd
    rw [hfree]
  have hkey : cacheGet ((lockId, CacheVal.lockMarker) :: c)
      (generate_cache_key (searchDataToJson sd)) = none :=
    (cacheGet_cons_ne c lockId _ CacheVal.lockMarker hne).trans hmiss
  unfold post
  rw [hadd]
  simp only [Bool.not_true, Bool.false_eq_true, if_false, hkey]
  rcases hrun : parserRun page db sd.legs with ⟨out, db2⟩
  cases out <;> rfl

/-- C4 (amended): on the validated cache-miss path, the result cache is
written exactly for the ticket-list and no-flights outcomes; error
outcomes — in particular AutomationFault error strings — are never
written, so a later identical request re-runs the scrape; but a
ContentTimeout is folded into the no-flights outcome and therefore IS
cached as the no-results marker. -/
theorem cache_writes_only_for_success_shapes (c : Cache) (db : DB) (lockId : String)
    (sd : SearchData) (page : PageBehavior)
    (hfree : cacheGet c lockId = none)
    (hmiss : cacheGet c (generate_cache_key (searchDataToJson sd)) = none)
    (hne : ¬ generate_cache_key (searchDataToJson sd) = lockId) :
    (∀ l db2, parserRun page db sd.legs = (RunOutcome.flights l, db2) →
      cacheGet (post c db lockId (some sd) page).cache
          (generate_cache_key (searchDataToJson sd)) = some (CacheVal.flights l) ∧
      Ev.setResult ∈ (post c db lockId (some sd) page).events) ∧
    (∀ db2, parserRun page db sd.legs = (RunOutcome.noFlightsMsg, db2) →
      cacheGet (post c db lockId (some sd) page).cache
          (generate_cache_key (searchDataToJson sd)) = some CacheVal.noFlightsMarker ∧
      Ev.setResult ∈ (post c db lockId (some sd) page).events) ∧
    (∀ e db2, parserRun page db sd.legs = (RunOutcome.errorMsg e, db2) →
      cacheGet (post c db lockId (some sd) page).cache
          (generate_cache_key (searchDataToJson sd)) = none ∧
      Ev.setResult ∉ (post c db lockId (some sd) page).events) ∧
    (page.navigationFails = false → page.contentSignal = ContentSignal.timeoutNoSignal →
      cacheGet (post c db lockId (some sd) page).cache
          (generate_cache_key (searchDataToJson sd)) = some CacheVal.noFlightsMarker) := by
  have heq := post_miss_eq c db lockId sd page hfree hmiss hne
  refine ⟨?_, ?_, ?_, ?_⟩
  · intro l db2 hrun
    rw [heq, hrun]
    refine ⟨?_, by simp⟩
    rw [cacheGet_delete_ne _ _ _ hne, cacheGet_set_self]
  · intro db2 hrun
    rw [heq, hrun]
    refine ⟨?_, by simp⟩
    rw [cacheGet_delete_ne _ _ _ hne, cacheGet_set_self]
  · intro e db2 hrun
    rw [heq, hrun]
    refine ⟨?_, by simp⟩
    rw [cacheGet_delete_ne _ _ _ hne, cacheGet_cons_ne _ _ _ _ hne]
    exact hmiss
  · intro hnav hsig
    rw [heq, parserRun_timeout_marker page db sd.legs hnav hsig]
    rw [cacheGet_delete_ne _ _ _ hne, cacheGet_set_self]

/-- Fixture: the one-way request of the spec's end-to-end scenario. -/
def sdOneWay : SearchData :=
  { legs := [⟨"JFK", "LHR", "2026-01-15"⟩], ADT := 1, CNN := 0, INF := 0, cabin := "C" }

/-- Fixture: a session whose content wait times out without either
marker appearing. -/
def pageTimeout : PageBehavior :=
  { navigationFails := false
    contentSignal := ContentSignal.timeoutNoSignal
    cards := []
    expandTimesOut := false }

/-- Fixture: a session that crashes during navigation. -/
def pageNavFail : PageBehavior :=
  { navigationFails := true
    contentSignal := ContentSignal.bestDeals
    cards := []
    expandTimesOut := false }

set_option maxRecDepth 100000 in
/-- Witness for C4 (amended): the AutomationFault outcome leaves the
derived key unset and records no cache write. -/
theorem cache_writes_only_for_success_shapes_witness :
    cacheGet (post [] emptyDB "lock_1" (some sdOneWay) pageNavFail).cache
        (generate_cache_key (searchDataToJson sdOneWay)) = none ∧
    Ev.setResult ∉ (post [] emptyDB "lock_1" (some sdOneWay) pageNavFail).events :=
  (cache_writes_only_for_success_shapes [] emptyDB "lock_1" sdOneWay pageNavFail
    (by decide) (by decide) (by decide)).2.2.1 "Ошибка: navigation failed" emptyDB (by decide)

set_option maxRecDepth 100000 in
/-- Counterexample for C4 as stated: a ContentTimeout execution — the
site never signaled completion or emptiness — ends in a cache write:
the no-results marker is stored under the derived key, so a later
identical request is served this cached outcome instead of re-running
the scrape. -/
theorem content_timeout_is_cached :
    parserRun pageTimeout emptyDB sdOneWay.legs = (RunOutcome.noFlightsMsg, emptyDB) ∧
    cacheGet (post [] emptyDB "lock_1" (some sdOneWay) pageTimeout).cache
        (generate_cache_key (searchDataToJson sdOneWay)) = some CacheVal.noFlightsMarker ∧
    Ev.setResult ∈ (post [] emptyDB "lock_1" (some sdOneWay) pageTimeout).events := by
  decide

/-! ### C1: cache-key normalization -/

/-- Totality of the lexicographic comparison. -/
theorem lexLe_total (a b : List Char) (h : lexLe a b = false) : lexLe b a = true := by
  induction a generalizing b with
  | nil => simp [lexLe] at h
  | cons x xs ih =>
    cases b with
    | nil => rfl
    | cons y ys =>
      unfold lexLe at h ⊢
      by_cases h1 : x.toNat < y.toNat
      · rw [if_pos h1] at h
        cases h
      · rw [if_neg h1] at h
        by_cases h2 : y.toNat < x.toNat
        · rw [if_pos h2]
        · rw [if_neg h2] at h
          rw [if_neg h2, if_neg h1]
          exact ih ys h

/-- Totality of the string comparison used on dictionary keys. -/
theorem strLe_total (a b : String) (h : ¬ strLe a b = true) : strLe b a = true :=
  lexLe_total a.toList b.toList (by
    revert h
    cases hv : lexLe a.toList b.toList
    · intro _
      rfl
    · intro hc
      exact absurd hv hc)

/-- Chain of non-decreasing keys. -/
def keySorted {β : Type} : List (String × β) → Prop
  | [] => True
  | [_] => True
  | x :: y :: rest => strLe x.1 y.1 = true ∧ keySorted (y :: rest)

/-- Insertion keeps a key-sorted list key-sorted. -/
theorem keySorted_insertByKey {β : Type} (x : String × β) (l : List (String × β))
    (h : keySorted l) : keySorted (insertByKey x l) := by
  induction l with
  | nil => trivial
  | cons y ys ih =>
    show keySorted (if strLe x.1 y.1 then x :: y :: ys else y :: insertByKey x ys)
    by_cases hc : strLe x.1 y.1 = true
    · rw [if_pos hc]
      exact ⟨hc, h⟩
    · rw [if_neg hc]
      have hyx : strLe y.1 x.1 = true := strLe_total _ _ hc
      cases ys with
      | nil => exact ⟨hyx, trivial⟩
      | cons z zs =>
        have h1 : strLe y.1 z.1 = true := h.1
        have h2 : keySorted (z :: zs) := h.2
        have ihs := ih h2
        show keySorted (y :: insertByKey x (z :: zs))
        simp only [insertByKey] at ihs ⊢
        by_cases hcz : strLe x.1 z.1 = true
        · rw [if_pos hcz] at ihs ⊢
          exact ⟨hyx, ihs⟩
        · rw [if_neg hcz] at ihs ⊢
          exact ⟨h1, ihs⟩

/-- The insertion sort sorts. -/
theorem keySorted_sortByKey {β : Type} (l : List (String × β)) : keySorted (sortByKey l) := by
  induction l with
  | nil => trivial
  | cons x xs ih => exact keySorted_insertByKey x _ ih

/-- Sorting a sorted list changes nothing. -/
theorem sortByKey_of_sorted {β : Type} (l : List (String × β)) (h : keySorted l) :
    sortByKey l = l := by
  induction l with
  | nil => rfl
  | cons x xs ih =>
    show insertByKey x (sortByKey xs) = x :: xs
    cases xs with
    | nil => rfl
    | cons y ys =>
      have h1 : strLe x.1 y.1 = true := h.1
      have h2 : keySorted (y :: ys) := h.2
      rw [ih h2]
      show (if strLe x.1 y.1 then x :: y :: ys else y :: insertByKey x ys) = x :: y :: ys
      rw [if_pos h1]

/-- Sorting is idempotent. -/
theorem sortByKey_idem {β : Type} (l : List (String × β)) :
    sortByKey (sortByKey l) = sortByKey l :=
  sortByKey_of_sorted _ (keySorted_sortByKey l)

/-- Insertion commutes with mapping a key-preserving function. -/
theorem map_insertByKey {β γ : Type} (f : String × β → String × γ)
    (hf : ∀ p, (f p).1 = p.1) (x : String × β) (l : List (String × β)) :
    List.map f (insertByKey x l) = insertByKey (f x) (List.map f l) := by
  induction l with
  | nil => rfl
  | cons y ys ih =>
    show List.map f (if strLe x.1 y.1 then x :: y :: ys else y :: insertByKey x ys) =
      insertByKey (f x) (f y :: List.map f ys)
    by_cases hc : strLe x.1 y.1 = true
    · rw [if_pos hc, List.map_cons, List.map_cons]
      show _ = if strLe (f x).1 (f y).1 then f x :: f y :: List.map f ys
        else f y :: insertByKey (f x) (List.map f ys)
      rw [hf x, hf y, if_pos hc]
    · rw [if_neg hc, List.map_cons, ih]
      show _ = if strLe (f x).1 (f y).1 then f x :: f y :: List.map f ys
        else f y :: insertByKey (f x) (List.map f ys)
      rw [hf x, hf y, if_neg hc]

/-- Sorting commutes with mapping a key-preserving function. -/
theorem map_sortByKey {β γ : Type} (f : String × β → String × γ)
    (hf : ∀ p, (f p).1 = p.1) (l : List (String × β)) :
    List.map f (sortByKey l) = sortByKey (List.map f l) := by
  induction l with
  | nil => rfl
  | cons x xs ih =>
    show List.map f (insertByKey x (sortByKey xs)) = insertByKey (f x) (sortByKey (List.map f xs))
    rw [map_insertByKey f hf, ih]

/-- The rendered-entry function of dumps, named for rewriting. -/
def renderEntry (kv : String × Json) : String × String :=
  (kv.1, renderJStr kv.1 ++ ": " ++ Json.dumps kv.2)

/-- renderEntries is the map of renderEntry. -/
theorem renderEntries_eq_map (l : List (String × Json)) :
    renderEntries l = List.map renderEntry l := by
  induction l with
  | nil => rfl
  | cons kv rest ih =>
    show (kv.1, renderJStr kv.1 ++ ": " ++ Json.dumps kv.2) :: renderEntries rest = _
    rw [ih, List.map_cons]
    rfl

mutual

/-- Serialization with sorted keys is unchanged by recursively
pre-sorting every object. -/
theorem dumps_normalize : ∀ j : Json, Json.dumps (Json.normalize j) = Json.dumps j
  | Json.str s => rfl
  | Json.num n => rfl
  | Json.arr items => by
    show "[" ++ joinComma (dumpsList (normalizeList items)) ++ "]" =
      "[" ++ joinComma (dumpsList items) ++ "]"
    rw [dumpsList_normalizeList items]
  | Json.obj entries => by
    show "\x7b" ++ joinComma ((sortByKey (renderEntries (sortByKey
        (normalizeEntries entries)))).map (fun p => p.2)) ++ "\x7d" =
      "\x7b" ++ joinComma ((sortByKey (renderEntries entries)).map (fun p => p.2)) ++ "\x7d"
    rw [renderEntries_eq_map (sortByKey (normalizeEntries entries)),
      map_sortByKey renderEntry (fun p => rfl), ← renderEntries_eq_map,
      renderEntries_normalizeEntries entries, sortByKey_idem]

/-- Item serializations are unchanged by normalizing each item. -/
theorem dumpsList_normalizeList : ∀ l : List Json, dumpsList (normalizeList l) = dumpsList l
  | [] => rfl
  | j :: js => by
    show Json.dumps (Json.normalize j) :: dumpsList (normalizeList js) =
      Json.dumps j :: dumpsList js
    rw [dumps_normalize j, dumpsList_normalizeList js]

/-- Rendered entries are unchanged by normalizing each value. -/
theorem renderEntries_normalizeEntries :
    ∀ l : List (String × Json), renderEntries (normalizeEntries l) = renderEntries l
  | [] => rfl
  | kv :: rest => by
    show (kv.1, renderJStr kv.1 ++ ": " ++ Json.dumps (Json.normalize kv.2)) ::
        renderEntries (normalizeEntries rest) =
      (kv.1, renderJStr kv.1 ++ ": " ++ Json.dumps kv.2) :: renderEntries rest
    rw [dumps_normalize kv.2, renderEntries_normalizeEntries rest]

end

/-- C1 (amended): two payloads that agree up to the insertion order of
their objects' fields (equal recursive key-sorted forms) always derive
the same cache key: json.dumps with sort_keys=True canonicalizes field
order before hashing.  Semantically equal but cosmetically different
date strings, however, are hashed verbatim and give different keys (see
the counterexample). -/
theorem key_invariant_under_field_order (j1 j2 : Json)
    (h : Json.normalize j1 = Json.normalize j2) :
    generate_cache_key j1 = generate_cache_key j2 := by
  unfold generate_cache_key
  rw [← dumps_normalize j1, ← dumps_normalize j2, h]

/-- Witness for C1 (amended): the one-way payload with its fields (and
its leg's fields) permuted hashes to the same key as the serializer
ordering. -/
theorem key_invariant_under_field_order_witness :
    generate_cache_key (searchDataToJson sdOneWay) =
    generate_cache_key (Json.obj
      [("cabin", Json.str "C"), ("ADT", Json.num 1),
       ("legs", Json.arr [Json.obj
         [("date", Json.str "2026-01-15"), ("origin", Json.str "JFK"),
          ("destination", Json.str "LHR")]]),
       ("INF", Json.num 0), ("CNN", Json.num 0)]) :=
  key_invariant_under_field_order _ _ (by rfl)

set_option maxRecDepth 100000 in
/-- Counterexample for C1 as stated: two requests that differ only in
cosmetically different but semantically equal leg-date strings — the
URL builder's own date normalization sends both to 2026-01-15 — derive
different cache keys, because the raw date text is hashed without
normalization. -/
theorem date_format_changes_cache_key :
    (format_date "01/15/2026").toOption = some "2026-01-15" ∧
    (format_date "2026-01-15").toOption = some "2026-01-15" ∧
    generate_cache_key (searchDataToJson
      { legs := [⟨"JFK", "LHR", "01/15/2026"⟩], ADT := 1, CNN := 0, INF := 0, cabin := "C" }) ≠
    generate_cache_key (searchDataToJson
      { legs := [⟨"JFK", "LHR", "2026-01-15"⟩], ADT := 1, CNN := 0, INF := 0, cabin := "C" }) := by
  decide

end VMAG
